import Mathlib

/-!
# Green Wave game — verification of the simulation core

A shallow embedding of the simulation core of the Green Wave driving game
(`game.js`): the traffic-light phase function, the car-physics integrator,
the per-tick rule engine (crossing checks, stop/red-light failures, win
check), the star-rating function and the session aggregation.  JavaScript
numbers are modelled as rationals; the JavaScript `%` operator (a truncating
remainder, not a true modulo) is modelled by `jsRem`.
-/

namespace GreenWave

/-- The four phases of a traffic light
(`'red'`, `'yellow'`, `'green'`, `'blinking-yellow'` in the source). -/
inductive Phase where
  | red
  | yellow
  | green
  | blinkingYellow
deriving DecidableEq, Repr

/-- A runtime traffic light: authored configuration (`x`, `greenDuration`,
`redDuration`, `offset`) plus the mutable one-shot `passed` flag, as built
by `initLevel`. -/
structure Light where
  x : ℚ
  greenDuration : ℚ
  redDuration : ℚ
  offset : ℚ
  passed : Bool
deriving DecidableEq, Repr

/-- `YELLOW_BEFORE_GREEN = 1.0` in the source. -/
def YELLOW_BEFORE_GREEN : ℚ := 1

/-- `YELLOW_AFTER_GREEN = 1.5` in the source. -/
def YELLOW_AFTER_GREEN : ℚ := 3 / 2

/-- `MAX_SPEED = 120` (km/h). -/
def MAX_SPEED : ℚ := 120

/-- `ACCELERATION = 40` (km/h per second). -/
def ACCELERATION : ℚ := 40

/-- `BRAKE_POWER = 60` (km/h per second). -/
def BRAKE_POWER : ℚ := 60

/-- `FRICTION = 5` (km/h per second). -/
def FRICTION : ℚ := 5

/-- `CAR_WIDTH = 100` (pixels); the crossing test uses half of it. -/
def CAR_WIDTH : ℚ := 100

/-- JavaScript's `%` operator on numbers: the remainder of truncating
division (`a - b * trunc (a / b)`), which for a nonnegative dividend and a
positive divisor agrees with the true modulo, but keeps the dividend's sign
in general. -/
def jsRem (a b : ℚ) : ℚ :=
  a - b * (if 0 ≤ a / b then ((⌊a / b⌋ : ℤ) : ℚ) else ((⌈a / b⌉ : ℤ) : ℚ))

/-- `cycleDuration` as computed in `getLightState`:
`redDuration + YELLOW_BEFORE_GREEN + greenDuration + YELLOW_AFTER_GREEN`. -/
def cycleDuration (l : Light) : ℚ :=
  l.redDuration + YELLOW_BEFORE_GREEN + l.greenDuration + YELLOW_AFTER_GREEN

/-- `getLightState(light, time)` from `game.js`: reduce
`time + offset` modulo the cycle duration with JavaScript's `%`, then
compare against the phase boundaries with half-open intervals. -/
def getLightState (l : Light) (time : ℚ) : Phase :=
  let adjustedTime := jsRem (time + l.offset) (cycleDuration l)
  let redEnd := l.redDuration
  let yellowBeforeEnd := redEnd + YELLOW_BEFORE_GREEN
  let greenEnd := yellowBeforeEnd + l.greenDuration
  if adjustedTime < redEnd then Phase.red
  else if adjustedTime < yellowBeforeEnd then Phase.yellow
  else if adjustedTime < greenEnd then Phase.green
  else Phase.blinkingYellow

/-- `calculateStars(speedChange, levelDistance)` from `game.js`. -/
def calculateStars (speedChange levelDistance : ℚ) : ℕ :=
  let normalizedChange := speedChange / (levelDistance / 100)
  if normalizedChange < 20 then 3
  else if normalizedChange < 50 then 2
  else 1

/-- The two loss reasons of the game
(`"You stopped! …"` and `"You ran a red light! …"` in the source). -/
inductive Reason where
  | stopped
  | ranRedLight
deriving DecidableEq, Repr

/-- The attempt status (`gameState` in the source, restricted to the
simulation-relevant values). -/
inductive Status where
  | playing
  | won
  | lost (r : Reason)
deriving DecidableEq, Repr

/-- A sampled input frame: `keys.gas` and `keys.brake`. -/
structure Input where
  gas : Bool
  brake : Bool
deriving DecidableEq, Repr

/-- The mutable per-attempt state: `gameTime`, `carSpeed`, `carWorldX`,
`lightsPassed`, `trafficLights`, `totalSpeedChange`, `lastSpeed` and
`gameState` from the source. -/
structure AttemptState where
  gameTime : ℚ
  carSpeed : ℚ
  carWorldX : ℚ
  lightsPassed : ℕ
  lights : List Light
  totalSpeedChange : ℚ
  lastSpeed : ℚ
  status : Status
deriving DecidableEq, Repr

/-- The clamp `carSpeed = Math.max(0, Math.min(MAX_SPEED, carSpeed))`. -/
def clampSpeed (s : ℚ) : ℚ := max 0 (min MAX_SPEED s)

/-- The unclamped speed update of one tick: accelerate on gas alone, brake
on brake alone, otherwise (neither or both pedals) apply friction. -/
def rawSpeed (s : ℚ) (gas brake : Bool) (dt : ℚ) : ℚ :=
  if gas = true ∧ brake = false then s + ACCELERATION * dt
  else if brake = true ∧ gas = false then s - BRAKE_POWER * dt
  else s - FRICTION * dt

/-- The clamped speed after one tick (`update`, speed section). -/
def updateSpeed (s : ℚ) (gas brake : Bool) (dt : ℚ) : ℚ :=
  clampSpeed (rawSpeed s gas brake dt)

/-- The speed after folding a whole input script
(`(gas, brake, deltaTime)` triples) through the per-tick speed update. -/
def runSpeed (s : ℚ) (ticks : List (Bool × Bool × ℚ)) : ℚ :=
  ticks.foldl (fun sp i => updateSpeed sp i.1 i.2.1 i.2.2) s

/-- One step of the traffic-light loop's marking: a light with
`!passed && carFront > light.x` gets `passed := true`, others unchanged. -/
def markLight (carFront : ℚ) (l : Light) : Light :=
  if l.passed = false ∧ l.x < carFront then { l with passed := true } else l

/-- The `for (const light of trafficLights)` loop of `update`: walk the
lights in list order, and at each light with `!passed && carFront > light.x`
either stop with the red-light failure flag (when `getLightState` is red at
the current game time) or mark it passed and increment `lightsPassed`.
Returns the updated light list, the updated counter and the failure flag. -/
def checkLights (carFront t : ℚ) : List Light → ℕ → List Light × ℕ × Bool
  | [], n => ([], n, false)
  | l :: ls, n =>
    if l.passed = false ∧ l.x < carFront then
      if getLightState l t = Phase.red then (l :: ls, n, true)
      else
        let r := checkLights carFront t ls (n + 1)
        ({ l with passed := true } :: r.1, r.2.1, r.2.2)
    else
      let r := checkLights carFront t ls n
      (l :: r.1, r.2.1, r.2.2)

/-- The clamped speed this tick computes, as a function of the state. -/
def tickSpeed (inp : Input) (dt : ℚ) (st : AttemptState) : ℚ :=
  updateSpeed st.carSpeed inp.gas inp.brake dt

/-- The world position after this tick's movement:
`carWorldX += carSpeed * 3 * deltaTime` (3 pixels per km/h). -/
def tickPos (inp : Input) (dt : ℚ) (st : AttemptState) : ℚ :=
  st.carWorldX + tickSpeed inp dt st * 3 * dt

/-- The car's leading edge after this tick:
`carFront = carWorldX + CAR_WIDTH / 2`. -/
def tickCarFront (inp : Input) (dt : ℚ) (st : AttemptState) : ℚ :=
  tickPos inp dt st + CAR_WIDTH / 2

/-- The smoothness accumulator after this tick:
`if (keys.gas || keys.brake) totalSpeedChange += Math.abs(carSpeed - lastSpeed)`. -/
def tickAcc (inp : Input) (dt : ℚ) (st : AttemptState) : ℚ :=
  if inp.gas = true ∨ inp.brake = true then
    st.totalSpeedChange + |tickSpeed inp dt st - st.lastSpeed|
  else st.totalSpeedChange

/-- One simulation tick, `update(deltaTime)` from `game.js`: bail out unless
playing; advance `gameTime`; update and clamp the speed; accumulate
`totalSpeedChange` on gas/brake ticks and refresh `lastSpeed`; lose with
reason `stopped` when the new speed is `0` without gas (before any
movement); otherwise move, run the traffic-light loop (losing with reason
`ranRedLight` when it hits a red crossing), and finally win when
`carWorldX > finishX`. -/
def update (finishX : ℚ) (inp : Input) (dt : ℚ) (st : AttemptState) : AttemptState :=
  if st.status = Status.playing then
    let t := st.gameTime + dt
    let s := tickSpeed inp dt st
    let acc := tickAcc inp dt st
    if s = 0 ∧ inp.gas = false then
      { st with gameTime := t, carSpeed := s, totalSpeedChange := acc, lastSpeed := s,
                status := Status.lost Reason.stopped }
    else
      let pos := tickPos inp dt st
      let r := checkLights (tickCarFront inp dt st) t st.lights st.lightsPassed
      if r.2.2 = true then
        { gameTime := t, carSpeed := s, carWorldX := pos, lightsPassed := r.2.1,
          lights := r.1, totalSpeedChange := acc, lastSpeed := s,
          status := Status.lost Reason.ranRedLight }
      else if finishX < pos then
        { gameTime := t, carSpeed := s, carWorldX := pos, lightsPassed := r.2.1,
          lights := r.1, totalSpeedChange := acc, lastSpeed := s, status := Status.won }
      else
        { gameTime := t, carSpeed := s, carWorldX := pos, lightsPassed := r.2.1,
          lights := r.1, totalSpeedChange := acc, lastSpeed := s, status := Status.playing }
  else st

/-- A whole run of ticks (`update` folded over an input script). -/
def runUpdates (finishX : ℚ) (ticks : List (Input × ℚ)) (st : AttemptState) : AttemptState :=
  ticks.foldl (fun s i => update finishX i.1 i.2 s) st

/-- One animation frame, `gameLoop` from `game.js` restricted to the
simulation state: when the measured delta exceeds `0.1` seconds the tick is
skipped entirely (only a re-render happens), otherwise `update` runs with
that delta. -/
def frame (finishX : ℚ) (inp : Input) (dt : ℚ) (st : AttemptState) : AttemptState :=
  if dt > 1 / 10 then st else update finishX inp dt st

/-- `Number.prototype.toFixed(1)` (composed with `parseFloat`) on a
nonnegative rational: round to the nearest tenth, ties away from zero. -/
def toFixed1 (q : ℚ) : ℚ := ((⌊q * 10 + 1 / 2⌋ : ℤ) : ℚ) / 10

/-- One recorded level of `gameSession.levels`. -/
structure SessionLevel where
  level : ℕ
  time : ℚ
  stars : ℕ
  smoothness : ℚ
deriving DecidableEq, Repr

/-- `addLevelToSession` (for an active session): push
`{level, time: parseFloat(time.toFixed(1)), stars,
smoothness: parseFloat(smoothness.toFixed(1))}`. -/
def addLevelToSession (sess : List SessionLevel) (level : ℕ) (time : ℚ)
    (stars : ℕ) (smoothness : ℚ) : List SessionLevel :=
  sess ++ [{ level := level, time := toFixed1 time, stars := stars,
             smoothness := toFixed1 smoothness }]

/-- The session built by recording a list of level wins
(`(level, finishTime, stars, smoothness)` tuples) in order. -/
def buildSession (wins : List (ℕ × ℚ × ℕ × ℚ)) : List SessionLevel :=
  wins.foldl (fun s w => addLevelToSession s w.1 w.2.1 w.2.2.1 w.2.2.2) []

/-- `getSessionTotalTime`: the sum of the stored per-level times. -/
def getSessionTotalTime (sess : List SessionLevel) : ℚ :=
  (sess.map (fun l => l.time)).sum

/-- `getSessionAverageStars`: the mean of the stored stars, rounded to one
decimal via `toFixed(1)`. -/
def getSessionAverageStars (sess : List SessionLevel) : ℚ :=
  toFixed1 ((sess.map (fun l => (l.stars : ℚ))).sum / (sess.length : ℚ))

/-! ## Basic lemmas about the JavaScript remainder and the phase function -/

/-- On a nonnegative dividend and a positive divisor, the JavaScript
remainder agrees with the true modulo, `b * Int.fract (a / b)`. -/
lemma jsRem_of_nonneg (a b : ℚ) (ha : 0 ≤ a) (hb : 0 < b) :
    jsRem a b = b * Int.fract (a / b) := by
  have hb' : b ≠ 0 := ne_of_gt hb
  have hcancel : b * (a / b) = a := by field_simp
  rw [jsRem, if_pos (div_nonneg ha hb.le), Int.fract, mul_sub, hcancel]

lemma jsRem_nonneg (a b : ℚ) (ha : 0 ≤ a) (hb : 0 < b) : 0 ≤ jsRem a b := by
  rw [jsRem_of_nonneg a b ha hb]
  exact mul_nonneg hb.le (Int.fract_nonneg _)

lemma jsRem_lt (a b : ℚ) (ha : 0 ≤ a) (hb : 0 < b) : jsRem a b < b := by
  rw [jsRem_of_nonneg a b ha hb]
  calc b * Int.fract (a / b) < b * 1 := by
        exact (mul_lt_mul_left hb).mpr (Int.fract_lt_one _)
    _ = b := mul_one b

/-- Shifting the dividend by an integer multiple of the divisor does not
change the JavaScript remainder, as long as both dividends are
nonnegative. -/
lemma jsRem_add_int_mul (a b : ℚ) (k : ℤ) (ha : 0 ≤ a)
    (ha' : 0 ≤ a + (k : ℚ) * b) (hb : 0 < b) :
    jsRem (a + (k : ℚ) * b) b = jsRem a b := by
  rw [jsRem_of_nonneg _ b ha' hb, jsRem_of_nonneg a b ha hb]
  have hb' : b ≠ 0 := ne_of_gt hb
  have hdiv : (a + (k : ℚ) * b) / b = a / b + (k : ℚ) := by
    field_simp
  rw [hdiv, Int.fract_add_int]

/-- `getLightState` written as a chain of half-open comparisons on the
adjusted time. -/
lemma getLightState_eq (l : Light) (t : ℚ) :
    getLightState l t =
      (if jsRem (t + l.offset) (cycleDuration l) < l.redDuration then Phase.red
       else if jsRem (t + l.offset) (cycleDuration l) <
           l.redDuration + YELLOW_BEFORE_GREEN then Phase.yellow
       else if jsRem (t + l.offset) (cycleDuration l) <
           l.redDuration + YELLOW_BEFORE_GREEN + l.greenDuration then Phase.green
       else Phase.blinkingYellow) := rfl

lemma cycleDuration_pos (l : Light) (hr : 0 < l.redDuration)
    (hg : 0 < l.greenDuration) : 0 < cycleDuration l := by
  unfold cycleDuration YELLOW_BEFORE_GREEN YELLOW_AFTER_GREEN
  linarith

/-! ## The lights used by concrete witnesses -/

/-- The single light of level 1 (`{ x: 600, greenDuration: 4,
redDuration: 2, offset: 0 }`), as a runtime light. -/
def tutorialLight : Light :=
  { x := 600, greenDuration := 4, redDuration := 2, offset := 0, passed := false }

/-- A small light configuration used to exhibit the behaviour of the
JavaScript remainder on negative adjusted times. -/
def badLight : Light :=
  { x := 0, greenDuration := 1, redDuration := 1, offset := 0, passed := false }

/-! ## C2: the phase intervals -/

/-- C2: for every light configuration with positive red and green durations
and nonnegative phase offset, and every time `t ≥ 0`, the adjusted time
`(t + offset) mod cycleDuration` lies in `[0, cycleDuration)` and
`getLightState` returns `red` exactly on `[0, redDuration)`, `yellow`
(YellowPreGreen) exactly on the next interval of length
`YELLOW_BEFORE_GREEN = 1.0`, `green` exactly on the next interval of length
`greenDuration`, and `blinkingYellow` (BlinkingYellowPreRed) exactly on the
remaining interval up to `cycleDuration = redDuration + 1.0 + greenDuration
+ 1.5`: the four half-open intervals partition `[0, cycleDuration)` and at
a boundary instant the later phase wins. -/
theorem C2_phase_intervals (l : Light) (t : ℚ)
    (hr : 0 < l.redDuration) (hg : 0 < l.greenDuration)
    (ho : 0 ≤ l.offset) (ht : 0 ≤ t) :
    0 ≤ jsRem (t + l.offset) (cycleDuration l) ∧
    jsRem (t + l.offset) (cycleDuration l) < cycleDuration l ∧
    (getLightState l t = Phase.red ↔
      jsRem (t + l.offset) (cycleDuration l) < l.redDuration) ∧
    (getLightState l t = Phase.yellow ↔
      l.redDuration ≤ jsRem (t + l.offset) (cycleDuration l) ∧
      jsRem (t + l.offset) (cycleDuration l) <
        l.redDuration + YELLOW_BEFORE_GREEN) ∧
    (getLightState l t = Phase.green ↔
      l.redDuration + YELLOW_BEFORE_GREEN ≤ jsRem (t + l.offset) (cycleDuration l) ∧
      jsRem (t + l.offset) (cycleDuration l) <
        l.redDuration + YELLOW_BEFORE_GREEN + l.greenDuration) ∧
    (getLightState l t = Phase.blinkingYellow ↔
      l.redDuration + YELLOW_BEFORE_GREEN + l.greenDuration ≤
        jsRem (t + l.offset) (cycleDuration l) ∧
      jsRem (t + l.offset) (cycleDuration l) < cycleDuration l) := by
  have hcyc : 0 < cycleDuration l := cycleDuration_pos l hr hg
  have ha : 0 ≤ t + l.offset := by linarith
  have hY : YELLOW_BEFORE_GREEN = 1 := rfl
  set tm := jsRem (t + l.offset) (cycleDuration l) with htm
  have h0 : 0 ≤ tm := jsRem_nonneg _ _ ha hcyc
  have h1 : tm < cycleDuration l := jsRem_lt _ _ ha hcyc
  refine ⟨h0, h1, ?_, ?_, ?_, ?_⟩ <;> rw [getLightState_eq, ← htm] <;>
      split_ifs with hA hB hC
  · exact iff_of_true rfl hA
  · exact iff_of_false (by simp) hA
  · exact iff_of_false (by simp) hA
  · exact iff_of_false (by simp) hA
  · exact iff_of_false (by simp) (fun h => absurd hA (not_lt.mpr h.1))
  · exact iff_of_true rfl ⟨le_of_not_lt hA, hB⟩
  · exact iff_of_false (by simp) (fun h => hB h.2)
  · exact iff_of_false (by simp) (fun h => hB h.2)
  · exact iff_of_false (by simp) (fun h => by
      have := h.1; rw [hY] at this; linarith)
  · exact iff_of_false (by simp) (fun h => absurd hB (not_lt.mpr h.1))
  · exact iff_of_true rfl ⟨le_of_not_lt hB, hC⟩
  · exact iff_of_false (by simp) (fun h => hC h.2)
  · exact iff_of_false (by simp) (fun h => by
      have := h.1; rw [hY] at this; linarith)
  · exact iff_of_false (by simp) (fun h => by
      have := h.1; rw [hY] at this; linarith)
  · exact iff_of_false (by simp) (fun h => absurd hC (not_lt.mpr h.1))
  · exact iff_of_true rfl ⟨le_of_not_lt hC, h1⟩

/-- Witness for C2, at the level-1 light and `t = 3` (adjusted time `3`,
which lies in the green interval `[3, 7)` of an `8.5`-second cycle). -/
theorem C2_phase_intervals_witness :
    0 ≤ jsRem (3 + tutorialLight.offset) (cycleDuration tutorialLight) ∧
    jsRem (3 + tutorialLight.offset) (cycleDuration tutorialLight) <
      cycleDuration tutorialLight ∧
    (getLightState tutorialLight 3 = Phase.red ↔
      jsRem (3 + tutorialLight.offset) (cycleDuration tutorialLight) <
        tutorialLight.redDuration) ∧
    (getLightState tutorialLight 3 = Phase.yellow ↔
      tutorialLight.redDuration ≤
        jsRem (3 + tutorialLight.offset) (cycleDuration tutorialLight) ∧
      jsRem (3 + tutorialLight.offset) (cycleDuration tutorialLight) <
        tutorialLight.redDuration + YELLOW_BEFORE_GREEN) ∧
    (getLightState tutorialLight 3 = Phase.green ↔
      tutorialLight.redDuration + YELLOW_BEFORE_GREEN ≤
        jsRem (3 + tutorialLight.offset) (cycleDuration tutorialLight) ∧
      jsRem (3 + tutorialLight.offset) (cycleDuration tutorialLight) <
        tutorialLight.redDuration + YELLOW_BEFORE_GREEN +
          tutorialLight.greenDuration) ∧
    (getLightState tutorialLight 3 = Phase.blinkingYellow ↔
      tutorialLight.redDuration + YELLOW_BEFORE_GREEN +
          tutorialLight.greenDuration ≤
        jsRem (3 + tutorialLight.offset) (cycleDuration tutorialLight) ∧
      jsRem (3 + tutorialLight.offset) (cycleDuration tutorialLight) <
        cycleDuration tutorialLight) :=
  C2_phase_intervals tutorialLight 3 (by norm_num [tutorialLight])
    (by norm_num [tutorialLight]) (by norm_num [tutorialLight]) (by norm_num)

/-! ## C3: periodicity of the phase function -/

/-- C3 counterexample: the source computes the adjusted time with
JavaScript's `%`, a truncating remainder, so for a time whose shift by
`k = -1` cycles is negative the phase changes: with a light of red
duration 1, green duration 1 and offset 0 (cycle `4.5`), time `2` is green
but time `2 + (-1)·4.5 = -2.5` evaluates as red, refuting periodicity for
arbitrary integers `k`. -/
theorem C3_counterexample :
    getLightState badLight 2 = Phase.green ∧
    getLightState badLight (2 + ((-1 : ℤ) : ℚ) * cycleDuration badLight) = Phase.red ∧
    getLightState badLight (2 + ((-1 : ℤ) : ℚ) * cycleDuration badLight) ≠
      getLightState badLight 2 := by
  have hcyc : cycleDuration badLight = 9 / 2 := by
    norm_num [cycleDuration, badLight, YELLOW_BEFORE_GREEN, YELLOW_AFTER_GREEN]
  have hj1 : jsRem ((2 : ℚ) + badLight.offset) (cycleDuration badLight) = 2 := by
    rw [hcyc]; norm_num [jsRem, badLight]
  have hj2 : jsRem ((2 + ((-1 : ℤ) : ℚ) * cycleDuration badLight) + badLight.offset)
      (cycleDuration badLight) = -5 / 2 := by
    rw [hcyc]; norm_num [jsRem, badLight]
  have hgreen : getLightState badLight 2 = Phase.green := by
    rw [getLightState_eq, hj1]
    norm_num [badLight, YELLOW_BEFORE_GREEN]
  have hred : getLightState badLight (2 + ((-1 : ℤ) : ℚ) * cycleDuration badLight) =
      Phase.red := by
    rw [getLightState_eq, hj2]
    norm_num [badLight]
  refine ⟨hgreen, hred, ?_⟩
  rw [hgreen, hred]
  simp

/-- C3 (amended): periodicity `getLightState l (t + k·cycle) =
getLightState l t` holds for every integer `k` such that both adjusted
times are nonnegative (in particular for all `k ≥ 0` when `t, offset ≥ 0`),
and then the adjusted time `(t + offset) mod cycle` lies in
`[0, cycleDuration)`. -/
theorem C3_amended_periodicity (l : Light) (t : ℚ) (k : ℤ)
    (hr : 0 < l.redDuration) (hg : 0 < l.greenDuration)
    (h1 : 0 ≤ t + l.offset)
    (h2 : 0 ≤ t + (k : ℚ) * cycleDuration l + l.offset) :
    getLightState l (t + (k : ℚ) * cycleDuration l) = getLightState l t ∧
    0 ≤ jsRem (t + l.offset) (cycleDuration l) ∧
    jsRem (t + l.offset) (cycleDuration l) < cycleDuration l := by
  have hcyc : 0 < cycleDuration l := cycleDuration_pos l hr hg
  have e : t + (k : ℚ) * cycleDuration l + l.offset =
      t + l.offset + (k : ℚ) * cycleDuration l := by ring
  have key : jsRem (t + (k : ℚ) * cycleDuration l + l.offset) (cycleDuration l) =
      jsRem (t + l.offset) (cycleDuration l) := by
    rw [e]
    exact jsRem_add_int_mul (t + l.offset) (cycleDuration l) k h1 (by linarith) hcyc
  refine ⟨?_, jsRem_nonneg _ _ h1 hcyc, jsRem_lt _ _ h1 hcyc⟩
  rw [getLightState_eq, getLightState_eq, key]

/-- Witness for C3 (amended), at the level-1 light, `t = 2`, `k = 3`. -/
theorem C3_amended_periodicity_witness :
    getLightState tutorialLight (2 + ((3 : ℤ) : ℚ) * cycleDuration tutorialLight) =
      getLightState tutorialLight 2 ∧
    0 ≤ jsRem (2 + tutorialLight.offset) (cycleDuration tutorialLight) ∧
    jsRem (2 + tutorialLight.offset) (cycleDuration tutorialLight) <
      cycleDuration tutorialLight :=
  C3_amended_periodicity tutorialLight 2 3 (by norm_num [tutorialLight])
    (by norm_num [tutorialLight]) (by norm_num [tutorialLight])
    (by norm_num [tutorialLight, cycleDuration, YELLOW_BEFORE_GREEN, YELLOW_AFTER_GREEN])

/-! ## C7: the star rating -/

/-- C7 counterexample: the claim's concrete scenario is wrong — at level
distance 1000 the normalized change of a speed change of 30 is
`30 / (1000/100) = 3 < 20`, so `calculateStars 30 1000 = 3`, not 2, and
likewise `calculateStars 60 1000 = 3`, not 1. -/
theorem C7_counterexample :
    calculateStars 30 1000 = 3 ∧ calculateStars 60 1000 = 3 ∧
    calculateStars 30 1000 ≠ 2 ∧ calculateStars 60 1000 ≠ 1 := by
  norm_num [calculateStars]

/-- C7 (amended): for every `speedChange ≥ 0` and `levelDistance > 0`,
`calculateStars` returns 3 when the normalized change
`speedChange / (levelDistance / 100)` is below 20, 2 when it is in
`[20, 50)`, and 1 otherwise; it is monotone non-increasing in the speed
change for a fixed distance, with the concrete scenario
`calculateStars 10 1000 = 3`, `calculateStars 300 1000 = 2`,
`calculateStars 600 1000 = 1`. -/
theorem C7_amended_stars (sc d : ℚ) (hsc : 0 ≤ sc) (hd : 0 < d) :
    calculateStars sc d =
      (if sc / (d / 100) < 20 then 3
       else if sc / (d / 100) < 50 then 2 else 1) ∧
    (∀ a b : ℚ, 0 ≤ a → a ≤ b → calculateStars b d ≤ calculateStars a d) ∧
    calculateStars 10 1000 = 3 ∧ calculateStars 300 1000 = 2 ∧
    calculateStars 600 1000 = 1 := by
  refine ⟨rfl, ?_, by norm_num [calculateStars], by norm_num [calculateStars],
    by norm_num [calculateStars]⟩
  intro a b _ hab
  have hd100 : 0 < d / 100 := by positivity
  have hdiv : a / (d / 100) ≤ b / (d / 100) := by gcongr
  simp only [calculateStars]
  split_ifs <;> linarith

/-- Witness for C7 (amended), at `speedChange = 10`, `levelDistance = 1000`,
with the monotonicity conjunct instantiated at `300 ≤ 600`. -/
theorem C7_amended_stars_witness :
    calculateStars 600 1000 ≤ calculateStars 300 1000 ∧
    calculateStars 10 1000 = 3 :=
  ⟨(C7_amended_stars 10 1000 (by norm_num) (by norm_num)).2.1 300 600
      (by norm_num) (by norm_num),
    (C7_amended_stars 10 1000 (by norm_num) (by norm_num)).2.2.1⟩

/-! ## C4: the speed integrator and its clamp -/

lemma updateSpeed_nonneg (s : ℚ) (gas brake : Bool) (dt : ℚ) :
    0 ≤ updateSpeed s gas brake dt :=
  le_max_left 0 _

lemma updateSpeed_le_max (s : ℚ) (gas brake : Bool) (dt : ℚ) :
    updateSpeed s gas brake dt ≤ MAX_SPEED := by
  unfold updateSpeed clampSpeed
  exact max_le (by norm_num [MAX_SPEED]) (min_le_left _ _)

lemma runSpeed_bounds (ticks : List (Bool × Bool × ℚ)) (s0 : ℚ)
    (h0 : 0 ≤ s0) (h1 : s0 ≤ MAX_SPEED) :
    0 ≤ runSpeed s0 ticks ∧ runSpeed s0 ticks ≤ MAX_SPEED := by
  induction ticks generalizing s0 with
  | nil => exact ⟨h0, h1⟩
  | cons a rest ih =>
    exact ih (updateSpeed s0 a.1 a.2.1 a.2.2)
      (updateSpeed_nonneg _ _ _ _) (updateSpeed_le_max _ _ _ _)

/-- C4: on every tick with `dt > 0` the new speed is the clamp to
`[0, MAX_SPEED]` of: `speed + ACCELERATION·dt` on gas alone,
`speed - BRAKE_POWER·dt` on brake alone, and `speed - FRICTION·dt`
otherwise (neither or both pedals, both-held treated as no input); hence
after any nonempty input script, from any starting value, the speed lies in
`[0, MAX_SPEED]`. -/
theorem C4_speed_clamped (s : ℚ) (gas brake : Bool) (dt : ℚ) (hdt : 0 < dt) :
    updateSpeed s gas brake dt =
      max 0 (min MAX_SPEED
        (if gas = true ∧ brake = false then s + ACCELERATION * dt
         else if brake = true ∧ gas = false then s - BRAKE_POWER * dt
         else s - FRICTION * dt)) ∧
    0 ≤ updateSpeed s gas brake dt ∧ updateSpeed s gas brake dt ≤ MAX_SPEED ∧
    ∀ (s0 : ℚ) (ticks : List (Bool × Bool × ℚ)), ticks ≠ [] →
      0 ≤ runSpeed s0 ticks ∧ runSpeed s0 ticks ≤ MAX_SPEED := by
  refine ⟨rfl, updateSpeed_nonneg _ _ _ _, updateSpeed_le_max _ _ _ _, ?_⟩
  intro s0 ticks hne
  match ticks with
  | [] => exact absurd rfl hne
  | a :: rest =>
    have hstep : runSpeed s0 (a :: rest) =
        runSpeed (updateSpeed s0 a.1 a.2.1 a.2.2) rest := rfl
    rw [hstep]
    exact runSpeed_bounds rest _ (updateSpeed_nonneg _ _ _ _) (updateSpeed_le_max _ _ _ _)

/-- Witness for C4: full throttle at 50 km/h with `dt = 0.1`, and a
one-tick script started far above the cap. -/
theorem C4_speed_clamped_witness :
    updateSpeed 50 true false (1 / 10) =
      max 0 (min MAX_SPEED (50 + ACCELERATION * (1 / 10))) ∧
    0 ≤ runSpeed 200 [(false, false, 1)] ∧
    runSpeed 200 [(false, false, 1)] ≤ MAX_SPEED := by
  have h := C4_speed_clamped 50 true false (1 / 10) (by norm_num)
  have hb := h.2.2.2 200 [(false, false, 1)] (by simp)
  refine ⟨?_, hb.1, hb.2⟩
  simpa using h.1

/-! ## The traffic-light loop -/

/-- The Boolean crossing test of the loop guard. -/
lemma checkLights_nil (cf t : ℚ) (n : ℕ) : checkLights cf t [] n = ([], n, false) := rfl

lemma crossedB_eq_true {cf : ℚ} {l : Light} (hc : l.passed = false ∧ l.x < cf) :
    (!l.passed && decide (l.x < cf)) = true := by
  simp [hc.1, hc.2]

lemma crossedB_eq_false {cf : ℚ} {l : Light} (hc : ¬(l.passed = false ∧ l.x < cf)) :
    (!l.passed && decide (l.x < cf)) = false := by
  by_cases hp : l.passed = false
  · have hx : ¬ l.x < cf := fun hlt => hc ⟨hp, hlt⟩
    simp [hp, hx]
  · have hp' : l.passed = true := by
      cases hpp : l.passed
      · exact absurd hpp hp
      · rfl
    simp [hp']

/-- If none of the lights that the car front has strictly passed is red at
`t`, the loop marks exactly those lights passed, counts them, and raises no
failure. -/
lemma checkLights_noRed (cf t : ℚ) (lights : List Light) (n : ℕ)
    (h : ∀ l ∈ lights, l.passed = false → l.x < cf → getLightState l t ≠ Phase.red) :
    checkLights cf t lights n =
      (lights.map (markLight cf),
       n + lights.countP (fun l => !l.passed && decide (l.x < cf)), false) := by
  induction lights generalizing n with
  | nil => simp [checkLights]
  | cons l ls ih =>
    by_cases hc : l.passed = false ∧ l.x < cf
    · have hnr : ¬ getLightState l t = Phase.red :=
        h l (List.mem_cons_self l ls) hc.1 hc.2
      have hstep : checkLights cf t (l :: ls) n =
          ({ l with passed := true } ::
            (checkLights cf t ls (n + 1)).1,
           (checkLights cf t ls (n + 1)).2.1,
           (checkLights cf t ls (n + 1)).2.2) := by
        simp only [checkLights, if_pos hc, if_neg hnr]
      rw [hstep, ih (n + 1) (fun x hx => h x (List.mem_cons_of_mem l hx))]
      simp [List.countP_cons, crossedB_eq_true hc, markLight, if_pos hc]
      omega
    · have hstep : checkLights cf t (l :: ls) n =
          (l :: (checkLights cf t ls n).1,
           (checkLights cf t ls n).2.1,
           (checkLights cf t ls n).2.2) := by
        simp only [checkLights, if_neg hc]
      rw [hstep, ih n (fun x hx => h x (List.mem_cons_of_mem l hx))]
      simp [List.countP_cons, crossedB_eq_false hc, markLight, if_neg hc]

/-- If the car front has strictly passed no unpassed light at all, the loop
is a no-op. -/
lemma checkLights_noCross (cf t : ℚ) (lights : List Light) (n : ℕ)
    (h : ∀ l ∈ lights, l.passed = false → ¬ l.x < cf) :
    checkLights cf t lights n = (lights, n, false) := by
  induction lights generalizing n with
  | nil => rfl
  | cons l ls ih =>
    have hc : ¬ (l.passed = false ∧ l.x < cf) := fun hcc => h l (List.mem_cons_self l ls) hcc.1 hcc.2
    have hstep : checkLights cf t (l :: ls) n =
        (l :: (checkLights cf t ls n).1,
         (checkLights cf t ls n).2.1,
         (checkLights cf t ls n).2.2) := by
      simp only [checkLights, if_neg hc]
    rw [hstep, ih n (fun x hx => h x (List.mem_cons_of_mem l hx))]

/-- If some crossed unpassed light is red at `t`, the loop stops at the
first such light in list order: the lights before it are marked and
counted, the red light itself and everything after it are untouched, and
the failure flag is raised. -/
lemma checkLights_red (cf t : ℚ) (lights : List Light) (n : ℕ)
    (h : ∃ l ∈ lights, l.passed = false ∧ l.x < cf ∧ getLightState l t = Phase.red) :
    ∃ pre l post, lights = pre ++ l :: post ∧
      l.passed = false ∧ l.x < cf ∧ getLightState l t = Phase.red ∧
      (∀ p ∈ pre, ¬(p.passed = false ∧ p.x < cf ∧ getLightState p t = Phase.red)) ∧
      checkLights cf t lights n =
        (pre.map (markLight cf) ++ l :: post,
         n + pre.countP (fun p => !p.passed && decide (p.x < cf)), true) := by
  induction lights generalizing n with
  | nil => simp at h
  | cons a ls ih =>
    by_cases hc : a.passed = false ∧ a.x < cf
    · by_cases hred : getLightState a t = Phase.red
      · refine ⟨[], a, ls, rfl, hc.1, hc.2, hred, by simp, ?_⟩
        simp only [checkLights, if_pos hc, if_pos hred, List.map_nil,
          List.nil_append, List.countP_nil, Nat.add_zero]
      · have hls : ∃ l ∈ ls, l.passed = false ∧ l.x < cf ∧ getLightState l t = Phase.red := by
          obtain ⟨w, hw, hwp⟩ := h
          rcases List.mem_cons.mp hw with rfl | hwls
          · exact absurd hwp.2.2 hred
          · exact ⟨w, hwls, hwp⟩
        obtain ⟨pre, l, post, heq, hl1, hl2, hl3, hpre, hck⟩ := ih (n + 1) hls
        refine ⟨a :: pre, l, post, by rw [heq]; rfl, hl1, hl2, hl3, ?_, ?_⟩
        · intro p hp
          rcases List.mem_cons.mp hp with rfl | hppre
          · exact fun hcc => hred hcc.2.2
          · exact hpre p hppre
        · have hstep : checkLights cf t (a :: ls) n =
              ({ a with passed := true } ::
                (checkLights cf t ls (n + 1)).1,
               (checkLights cf t ls (n + 1)).2.1,
               (checkLights cf t ls (n + 1)).2.2) := by
            simp only [checkLights, if_pos hc, if_neg hred]
          rw [hstep, hck]
          simp [List.countP_cons, crossedB_eq_true hc, markLight, if_pos hc]
          omega
    · have hls : ∃ l ∈ ls, l.passed = false ∧ l.x < cf ∧ getLightState l t = Phase.red := by
        obtain ⟨w, hw, hwp⟩ := h
        rcases List.mem_cons.mp hw with rfl | hwls
        · exact absurd ⟨hwp.1, hwp.2.1⟩ hc
        · exact ⟨w, hwls, hwp⟩
      obtain ⟨pre, l, post, heq, hl1, hl2, hl3, hpre, hck⟩ := ih n hls
      refine ⟨a :: pre, l, post, by rw [heq]; rfl, hl1, hl2, hl3, ?_, ?_⟩
      · intro p hp
        rcases List.mem_cons.mp hp with rfl | hppre
        · exact fun hcc => hc ⟨hcc.1, hcc.2.1⟩
        · exact hpre p hppre
      · have hstep : checkLights cf t (a :: ls) n =
            (a :: (checkLights cf t ls n).1,
             (checkLights cf t ls n).2.1,
             (checkLights cf t ls n).2.2) := by
          simp only [checkLights, if_neg hc]
        rw [hstep, hck]
        simp [List.countP_cons, crossedB_eq_false hc, markLight, if_neg hc]

/-! ## C1: the crossing rule -/

/-- C1: while playing, the tick's traffic-light loop evaluates, in list
order, exactly the lights with `passed = false` whose position is strictly
less than the car front. If none of them is red at the current time, every
one of them is marked `passed` and counted and no failure is raised; if
some crossed light is red, the loop stops at the first one in list order —
the earlier crossed lights are marked and counted, the red light itself and
all later lights are untouched, the failure flag (which `update` turns into
`Lost` with reason "ran red light") is raised — and under the
ascending-position ordering of the level data that light is the nearest red
among the crossed lights. Because the test `light.x < carFront` is purely
positional, crossings are never skipped however large `dt` is. -/
theorem C1_crossing_rule (lights : List Light) (n : ℕ) (t cf : ℚ)
    (hsorted : lights.Pairwise (fun a b => a.x < b.x)) :
    ((∀ l ∈ lights, l.passed = false → l.x < cf → getLightState l t ≠ Phase.red) →
      checkLights cf t lights n =
        (lights.map (markLight cf),
         n + lights.countP (fun l => !l.passed && decide (l.x < cf)), false)) ∧
    ((∃ l ∈ lights, l.passed = false ∧ l.x < cf ∧ getLightState l t = Phase.red) →
      ∃ pre l post, lights = pre ++ l :: post ∧
        l.passed = false ∧ l.x < cf ∧ getLightState l t = Phase.red ∧
        (∀ p ∈ pre, ¬(p.passed = false ∧ p.x < cf ∧ getLightState p t = Phase.red)) ∧
        checkLights cf t lights n =
          (pre.map (markLight cf) ++ l :: post,
           n + pre.countP (fun p => !p.passed && decide (p.x < cf)), true) ∧
        (∀ q ∈ lights, q.passed = false → q.x < cf → getLightState q t = Phase.red →
          l.x ≤ q.x)) := by
  refine ⟨checkLights_noRed cf t lights n, ?_⟩
  intro h
  obtain ⟨pre, l, post, heq, h1, h2, h3, hpre, hck⟩ := checkLights_red cf t lights n h
  refine ⟨pre, l, post, heq, h1, h2, h3, hpre, hck, ?_⟩
  intro q hq hq1 hq2 hq3
  rw [heq] at hq hsorted
  rcases List.mem_append.mp hq with hqpre | hqtail
  · exact absurd ⟨hq1, hq2, hq3⟩ (hpre q hqpre)
  · rcases List.mem_cons.mp hqtail with rfl | hqpost
    · exact le_refl _
    · have hsub : (l :: post).Pairwise (fun a b => a.x < b.x) :=
        (List.pairwise_append.mp hsorted).2.1
      exact (List.rel_of_pairwise_cons hsub hqpost).le

/-- At `t = 3` the level-1 light is green (adjusted time 3 lies in the
green interval `[3, 7)` of the 8.5 s cycle). -/
lemma tutorialLight_green : getLightState tutorialLight 3 = Phase.green := by
  have hcyc : cycleDuration tutorialLight = 17 / 2 := by
    norm_num [cycleDuration, tutorialLight, YELLOW_BEFORE_GREEN, YELLOW_AFTER_GREEN]
  have hj : jsRem ((3 : ℚ) + tutorialLight.offset) (cycleDuration tutorialLight) = 3 := by
    rw [hcyc]; norm_num [jsRem, tutorialLight]
  rw [getLightState_eq, hj]
  norm_num [tutorialLight, YELLOW_BEFORE_GREEN]

/-- Witness for C1: a single green light at 600 crossed by a car front at
700 is marked passed, counted, and raises no failure. -/
theorem C1_crossing_rule_witness :
    (∀ l ∈ [tutorialLight], l.passed = false → l.x < (700 : ℚ) →
      getLightState l 3 ≠ Phase.red) ∧
    checkLights 700 3 [tutorialLight] 0 =
      ([tutorialLight].map (markLight 700),
       0 + [tutorialLight].countP (fun l => !l.passed && decide (l.x < (700 : ℚ))),
       false) := by
  have hnr : ∀ l ∈ [tutorialLight], l.passed = false → l.x < (700 : ℚ) →
      getLightState l 3 ≠ Phase.red := by
    intro l hl
    rw [List.mem_singleton] at hl
    subst hl
    intro _ _
    rw [tutorialLight_green]
    simp
  exact ⟨hnr, (C1_crossing_rule [tutorialLight] 0 3 700 (by simp)).1 hnr⟩

/-! ## Tick-level lemmas -/

lemma update_not_playing {finishX : ℚ} {inp : Input} {dt : ℚ} {st : AttemptState}
    (h : ¬ st.status = Status.playing) : update finishX inp dt st = st := by
  simp [update, h]

lemma update_tsc_playing {finishX : ℚ} {inp : Input} {dt : ℚ} {st : AttemptState}
    (h : st.status = Status.playing) :
    (update finishX inp dt st).totalSpeedChange = tickAcc inp dt st := by
  simp only [update, h, if_true]
  split_ifs <;> rfl

lemma update_lastSpeed_playing {finishX : ℚ} {inp : Input} {dt : ℚ} {st : AttemptState}
    (h : st.status = Status.playing) :
    (update finishX inp dt st).lastSpeed = tickSpeed inp dt st := by
  simp only [update, h, if_true]
  split_ifs <;> rfl

lemma update_tsc_mono (finishX : ℚ) (inp : Input) (dt : ℚ) (st : AttemptState) :
    st.totalSpeedChange ≤ (update finishX inp dt st).totalSpeedChange := by
  by_cases h : st.status = Status.playing
  · rw [update_tsc_playing h]
    unfold tickAcc
    split_ifs with hh
    · have := abs_nonneg (tickSpeed inp dt st - st.lastSpeed)
      linarith
    · exact le_refl _
  · rw [update_not_playing h]

lemma update_tsc_coast {finishX : ℚ} {inp : Input} {dt : ℚ} {st : AttemptState}
    (hg : inp.gas = false) (hb : inp.brake = false) :
    (update finishX inp dt st).totalSpeedChange = st.totalSpeedChange := by
  by_cases h : st.status = Status.playing
  · rw [update_tsc_playing h]
    unfold tickAcc
    rw [if_neg]
    simp [hg, hb]
  · rw [update_not_playing h]

lemma runUpdates_tsc_mono (finishX : ℚ) (ticks : List (Input × ℚ)) :
    ∀ s0 : AttemptState,
      s0.totalSpeedChange ≤ (runUpdates finishX ticks s0).totalSpeedChange := by
  induction ticks with
  | nil => intro s0; exact le_refl _
  | cons a rest ih =>
    intro s0
    exact le_trans (update_tsc_mono finishX a.1 a.2 s0) (ih _)

lemma runUpdates_tsc_coast (finishX : ℚ) (ticks : List (Input × ℚ))
    (h : ∀ i ∈ ticks, i.1.gas = false ∧ i.1.brake = false) :
    ∀ s0 : AttemptState,
      (runUpdates finishX ticks s0).totalSpeedChange = s0.totalSpeedChange := by
  induction ticks with
  | nil => intro s0; rfl
  | cons a rest ih =>
    intro s0
    have ha := h a (List.mem_cons_self a rest)
    have hrest := fun i hi => h i (List.mem_cons_of_mem a hi)
    calc (runUpdates finishX (a :: rest) s0).totalSpeedChange
        = (runUpdates finishX rest (update finishX a.1 a.2 s0)).totalSpeedChange := rfl
      _ = (update finishX a.1 a.2 s0).totalSpeedChange := ih hrest _
      _ = s0.totalSpeedChange := update_tsc_coast ha.1 ha.2

/-! ## C5: the stop rule -/

/-- C5: on a playing tick, if the post-update speed is `0` and gas is not
held, the attempt transitions to `Lost` with reason "stopped" and nothing
else of that tick runs (position, lights and the passed counter are
untouched); if gas is held at speed `0` (and, as holds in every reachable
attempt state, no unpassed light lies strictly behind the car front), the
attempt is not lost; in particular coasting alone (no gas, no brake) from
any positive speed to exactly `0` triggers `Lost("stopped")`. -/
theorem C5_stop_rule (finishX : ℚ) (inp : Input) (dt : ℚ) (st : AttemptState)
    (hplay : st.status = Status.playing) :
    (tickSpeed inp dt st = 0 → inp.gas = false →
      (update finishX inp dt st).status = Status.lost Reason.stopped ∧
      (update finishX inp dt st).carWorldX = st.carWorldX ∧
      (update finishX inp dt st).lights = st.lights ∧
      (update finishX inp dt st).lightsPassed = st.lightsPassed) ∧
    (tickSpeed inp dt st = 0 → inp.gas = true →
      (∀ l ∈ st.lights, l.passed = false → ¬ l.x < st.carWorldX + CAR_WIDTH / 2) →
      ∀ r, (update finishX inp dt st).status ≠ Status.lost r) ∧
    (0 < st.carSpeed → inp.gas = false → inp.brake = false →
      tickSpeed inp dt st = 0 →
      (update finishX inp dt st).status = Status.lost Reason.stopped) := by
  refine ⟨?_, ?_, ?_⟩
  · intro hs hg
    have hcond : tickSpeed inp dt st = 0 ∧ inp.gas = false := ⟨hs, hg⟩
    simp only [update, hplay, if_true, if_pos hcond]
    exact ⟨trivial, trivial, trivial, trivial⟩
  · intro hs hg hinv r
    have hcond : ¬ (tickSpeed inp dt st = 0 ∧ inp.gas = false) := by
      rintro ⟨-, hgf⟩
      rw [hg] at hgf
      cases hgf
    have hpos : tickPos inp dt st = st.carWorldX := by
      simp [tickPos, hs]
    have hcf : tickCarFront inp dt st = st.carWorldX + CAR_WIDTH / 2 := by
      simp [tickCarFront, hpos]
    have hck : checkLights (tickCarFront inp dt st) (st.gameTime + dt) st.lights
        st.lightsPassed = (st.lights, st.lightsPassed, false) := by
      rw [hcf]
      exact checkLights_noCross _ _ _ _ hinv
    simp only [update, hplay, if_true, if_neg hcond, hck]
    split_ifs <;> simp_all
  · intro hpos hg hb hs
    have hcond : tickSpeed inp dt st = 0 ∧ inp.gas = false := ⟨hs, hg⟩
    simp only [update, hplay, if_true, if_pos hcond]

/-- The concrete coasting state used by the C5 witness: 0.5 km/h, no
pedals, one tick of friction at `dt = 0.1` reaches exactly 0. -/
def stopState : AttemptState :=
  { gameTime := 0, carSpeed := 1 / 2, carWorldX := 0, lightsPassed := 0,
    lights := [tutorialLight], totalSpeedChange := 0, lastSpeed := 1 / 2,
    status := Status.playing }

/-- Witness for C5: coasting from 0.5 km/h with `dt = 0.1` stops the car
and loses the attempt with reason "stopped". -/
theorem C5_stop_rule_witness :
    0 < stopState.carSpeed ∧
    tickSpeed ⟨false, false⟩ (1 / 10) stopState = 0 ∧
    (update 900 ⟨false, false⟩ (1 / 10) stopState).status =
      Status.lost Reason.stopped := by
  have hs : tickSpeed ⟨false, false⟩ (1 / 10) stopState = 0 := by
    simp only [tickSpeed, updateSpeed, rawSpeed, clampSpeed, stopState]
    norm_num [FRICTION, MAX_SPEED, min_def, max_def]
  refine ⟨by norm_num [stopState], hs, ?_⟩
  exact (C5_stop_rule 900 ⟨false, false⟩ (1 / 10) stopState rfl).2.2
    (by norm_num [stopState]) rfl rfl hs

/-! ## C6: the smoothness accumulator -/

/-- C6: on a playing tick the accumulator gains exactly
`|speed − previousSpeed|` when gas or brake is held and is untouched on
friction-only ticks; `lastSpeed` is unconditionally refreshed to the
post-update speed; the accumulator never decreases, over a single tick and
over any run of ticks; and a run of friction-only ticks (pure coasting)
leaves it exactly unchanged. -/
theorem C6_smoothness (finishX : ℚ) (inp : Input) (dt : ℚ) (st : AttemptState)
    (hplay : st.status = Status.playing) :
    ((inp.gas = true ∨ inp.brake = true) →
      (update finishX inp dt st).totalSpeedChange =
        st.totalSpeedChange + |tickSpeed inp dt st - st.lastSpeed|) ∧
    (inp.gas = false → inp.brake = false →
      (update finishX inp dt st).totalSpeedChange = st.totalSpeedChange) ∧
    (update finishX inp dt st).lastSpeed = tickSpeed inp dt st ∧
    st.totalSpeedChange ≤ (update finishX inp dt st).totalSpeedChange ∧
    (∀ ticks : List (Input × ℚ), ∀ s0 : AttemptState,
      s0.totalSpeedChange ≤ (runUpdates finishX ticks s0).totalSpeedChange) ∧
    (∀ ticks : List (Input × ℚ),
      (∀ i ∈ ticks, i.1.gas = false ∧ i.1.brake = false) →
      ∀ s0 : AttemptState,
        (runUpdates finishX ticks s0).totalSpeedChange = s0.totalSpeedChange) := by
  refine ⟨?_, ?_, update_lastSpeed_playing hplay, update_tsc_mono finishX inp dt st,
    runUpdates_tsc_mono finishX, fun ticks h s0 => runUpdates_tsc_coast finishX ticks h s0⟩
  · intro hin
    rw [update_tsc_playing hplay, tickAcc, if_pos hin]
  · intro hg hb
    exact update_tsc_coast hg hb

/-- The concrete accelerating state used by the C6 witness. -/
def goState : AttemptState :=
  { gameTime := 0, carSpeed := 50, carWorldX := 0, lightsPassed := 0,
    lights := [tutorialLight], totalSpeedChange := 7, lastSpeed := 50,
    status := Status.playing }

/-- Witness for C6: one full-throttle tick adds `|newSpeed − lastSpeed|` to
the accumulator and refreshes `lastSpeed`. -/
theorem C6_smoothness_witness :
    (update 900 ⟨true, false⟩ (1 / 10) goState).totalSpeedChange =
      goState.totalSpeedChange +
        |tickSpeed ⟨true, false⟩ (1 / 10) goState - goState.lastSpeed| ∧
    (update 900 ⟨true, false⟩ (1 / 10) goState).lastSpeed =
      tickSpeed ⟨true, false⟩ (1 / 10) goState ∧
    goState.totalSpeedChange ≤
      (update 900 ⟨true, false⟩ (1 / 10) goState).totalSpeedChange := by
  have h := C6_smoothness 900 ⟨true, false⟩ (1 / 10) goState rfl
  exact ⟨h.1 (Or.inl rfl), h.2.2.1, h.2.2.2.1⟩

/-! ## C9: the large-delta frame skip -/

/-- C9: a frame whose measured delta exceeds `0.1` seconds performs no
simulation step — the attempt state is returned exactly unchanged — and
any frame with a delta of at most `0.1` seconds runs the normal tick. -/
theorem C9_large_delta_skip (finishX : ℚ) (inp : Input) (dt : ℚ)
    (st : AttemptState) (h : 1 / 10 < dt) :
    frame finishX inp dt st = st ∧
    ∀ (inp2 : Input) (dt2 : ℚ), dt2 ≤ 1 / 10 →
      frame finishX inp2 dt2 st = update finishX inp2 dt2 st := by
  constructor
  · simp only [frame]
    rw [if_pos h]
  · intro inp2 dt2 h2
    simp only [frame]
    rw [if_neg (not_lt.mpr h2)]

/-- Witness for C9: a `0.5` s frame leaves the state untouched while a
`0.1` s frame ticks normally. -/
theorem C9_large_delta_skip_witness :
    frame 900 ⟨false, false⟩ (1 / 2) goState = goState ∧
    frame 900 ⟨true, false⟩ (1 / 10) goState =
      update 900 ⟨true, false⟩ (1 / 10) goState := by
  have h := C9_large_delta_skip 900 ⟨false, false⟩ (1 / 2) goState (by norm_num)
  exact ⟨h.1, h.2 ⟨true, false⟩ (1 / 10) (by norm_num)⟩

/-! ## Session aggregation: C8 and C10 -/

lemma buildSession_foldl (sess : List SessionLevel) (wins : List (ℕ × ℚ × ℕ × ℚ)) :
    wins.foldl (fun s w => addLevelToSession s w.1 w.2.1 w.2.2.1 w.2.2.2) sess =
      sess ++ wins.map (fun w =>
        { level := w.1, time := toFixed1 w.2.1, stars := w.2.2.1,
          smoothness := toFixed1 w.2.2.2 }) := by
  induction wins generalizing sess with
  | nil => simp
  | cons a rest ih =>
    simp only [List.foldl_cons, List.map_cons]
    rw [ih]
    simp [addLevelToSession, List.append_assoc]

lemma buildSession_eq (wins : List (ℕ × ℚ × ℕ × ℚ)) :
    buildSession wins = wins.map (fun w =>
      { level := w.1, time := toFixed1 w.2.1, stars := w.2.2.1,
        smoothness := toFixed1 w.2.2.2 }) := by
  unfold buildSession
  rw [buildSession_foldl]
  simp

lemma totalTime_buildSession (wins : List (ℕ × ℚ × ℕ × ℚ)) :
    getSessionTotalTime (buildSession wins) =
      (wins.map (fun w => toFixed1 w.2.1)).sum := by
  unfold getSessionTotalTime
  rw [buildSession_eq, List.map_map]
  rfl

lemma averageStars_buildSession (wins : List (ℕ × ℚ × ℕ × ℚ)) :
    getSessionAverageStars (buildSession wins) =
      toFixed1 ((wins.map (fun w => (w.2.2.1 : ℚ))).sum / (wins.length : ℚ)) := by
  unfold getSessionAverageStars
  rw [buildSession_eq, List.map_map, List.length_map]
  rfl

/-- C8 counterexample: a session holding a single win with exact finish
time `0.05` stores `toFixed(1)` of it, so the session total time is `0.1`,
not the sum `0.05` of the per-level finish times. -/
theorem C8_counterexample :
    getSessionTotalTime (addLevelToSession [] 1 (1 / 20) 3 0) = 1 / 10 ∧
    getSessionTotalTime (addLevelToSession [] 1 (1 / 20) 3 0) ≠ 1 / 20 := by
  have h : getSessionTotalTime (addLevelToSession [] 1 (1 / 20) 3 0) = 1 / 10 := by
    norm_num [getSessionTotalTime, addLevelToSession, toFixed1]
  exact ⟨h, by rw [h]; norm_num⟩

/-- C8 (amended): for every nonempty list of level wins, the session total
time equals the sum of the per-level finish times *each first rounded to
one decimal place* (the values actually stored by `addLevelToSession`), and
the session average stars equals the mean of the per-level stars rounded to
one decimal place. -/
theorem C8_amended_session (wins : List (ℕ × ℚ × ℕ × ℚ)) (hne : wins ≠ []) :
    getSessionTotalTime (buildSession wins) =
      (wins.map (fun w => toFixed1 w.2.1)).sum ∧
    getSessionAverageStars (buildSession wins) =
      toFixed1 ((wins.map (fun w => (w.2.2.1 : ℚ))).sum / (wins.length : ℚ)) :=
  ⟨totalTime_buildSession wins, averageStars_buildSession wins⟩

/-- Witness for C8 (amended): two wins with times `10.24` s and `7.3` s and
star counts 3 and 2. -/
theorem C8_amended_session_witness :
    getSessionTotalTime (buildSession [(1, 256 / 25, 3, 0), (2, 73 / 10, 2, 5)]) =
      ([(1, (256 : ℚ) / 25, 3, (0 : ℚ)), (2, 73 / 10, 2, 5)].map
        (fun w => toFixed1 w.2.1)).sum ∧
    getSessionAverageStars (buildSession [(1, 256 / 25, 3, 0), (2, 73 / 10, 2, 5)]) =
      toFixed1 (([(1, (256 : ℚ) / 25, 3, (0 : ℚ)), (2, 73 / 10, 2, 5)].map
        (fun w => (w.2.2.1 : ℚ))).sum /
        (([(1, (256 : ℚ) / 25, 3, (0 : ℚ)), (2, 73 / 10, 2, 5)] :
          List (ℕ × ℚ × ℕ × ℚ)).length : ℚ)) :=
  C8_amended_session [(1, 256 / 25, 3, 0), (2, 73 / 10, 2, 5)] (by simp)

/-- C10: recording a completed level stores its time and smoothness rounded
to one decimal place (`toFixed(1)`), so the session total time is the sum
of the rounded per-level times. -/
theorem C10_rounded_recording (sess : List SessionLevel) (lvl stars : ℕ)
    (time smooth : ℚ) :
    addLevelToSession sess lvl time stars smooth =
      sess ++ [{ level := lvl, time := toFixed1 time, stars := stars,
                 smoothness := toFixed1 smooth }] ∧
    ∀ wins : List (ℕ × ℚ × ℕ × ℚ),
      getSessionTotalTime (buildSession wins) =
        (wins.map (fun w => toFixed1 w.2.1)).sum :=
  ⟨rfl, totalTime_buildSession⟩

end GreenWave
